import Mathlib

/-!
Verification of the interpreter resolution engine of scriptman
(pkg/interpreter/detect.go), as a shallow embedding in Lean 4.

Strings are modelled as Lean `String`; the Go standard-library helpers the
engine uses (strings.TrimSpace, strings.Fields, strings.Contains,
strings.HasPrefix/HasSuffix, filepath.Base, filepath.Ext, bufio line
scanning, and the regexp replace used by getInterpreterFamily) are embedded
as executable functions over `List Char` below, each mirroring the Go
semantics at the call sites used by detect.go.
-/

namespace Scriptman

/-- Go unicode.IsSpace, as used by strings.TrimSpace and strings.Fields:
the Unicode White_Space property (Go's unicode.White_Space table). -/
def isGoSpace (c : Char) : Bool :=
  decide ((9 ≤ c.toNat ∧ c.toNat ≤ 13) ∨ c.toNat = 32 ∨ c.toNat = 0x85 ∨
    c.toNat = 0xA0 ∨ c.toNat = 0x1680 ∨ (0x2000 ≤ c.toNat ∧ c.toNat ≤ 0x200A) ∨
    c.toNat = 0x2028 ∨ c.toNat = 0x2029 ∨ c.toNat = 0x202F ∨
    c.toNat = 0x205F ∨ c.toNat = 0x3000)

/-- strings.TrimSpace over a character list. -/
def goTrimSpace (l : List Char) : List Char :=
  ((l.dropWhile isGoSpace).reverse.dropWhile isGoSpace).reverse

/-- Does the first list start with the second (strings.HasPrefix)? -/
def startsWithChars : List Char → List Char → Bool
  | _, [] => true
  | [], _ :: _ => false
  | c :: cs, p :: ps => c = p && startsWithChars cs ps

/-- strings.HasSuffix on strings. -/
def goEndsWith (s suffix : String) : Bool :=
  startsWithChars s.toList.reverse suffix.toList.reverse

/-- strings.Contains: does `l` contain `sub` as a contiguous sublist? -/
def containsChars : List Char → List Char → Bool
  | [], sub => sub.isEmpty
  | c :: cs, sub => startsWithChars (c :: cs) sub || containsChars cs sub

/-- strings.Fields: split around runs of Unicode whitespace.
`cur` accumulates the current field in reverse. -/
def fieldsAux : List Char → List Char → List String
  | cur, [] => if cur.isEmpty then [] else [cur.reverse.asString]
  | cur, c :: cs =>
    if isGoSpace c then
      if cur.isEmpty then fieldsAux [] cs
      else cur.reverse.asString :: fieldsAux [] cs
    else fieldsAux (c :: cur) cs

/-- strings.Fields on a character list. -/
def goFields (l : List Char) : List String := fieldsAux [] l

/-- filepath.Base (Unix separators): "" gives ".", trailing slashes are
stripped, then everything after the last slash is returned ("/" for a
path made only of slashes). -/
def goBase (p : String) : String :=
  if p = "" then "."
  else
    let r := p.toList.reverse.dropWhile (fun c => c = '/')
    if r.isEmpty then "/"
    else (r.takeWhile (fun c => c != '/')).reverse.asString

/-- filepath.Ext walks the path backwards until a separator; the result
starts at the first dot found (scanning from the end), else "".
`acc` holds, in original order, the characters already passed. -/
def extAuxRev (acc : List Char) : List Char → String
  | [] => ""
  | c :: cs =>
    if c = '/' then ""
    else if c = '.' then (c :: acc).asString
    else extAuxRev (c :: acc) cs

/-- filepath.Ext on a path string. -/
def goExt (p : String) : String := extAuxRev [] p.toList.reverse

/-- bufio.Scanner line splitting: drop a single trailing carriage return. -/
def dropCR (l : List Char) : List Char :=
  if l.getLast? = some '\r' then l.dropLast else l

/-- First token of bufio.NewScanner(...).Scan()/Text(): `none` when the
content is empty, otherwise the text before the first newline with a
trailing carriage return removed. -/
def firstLine (content : String) : Option (List Char) :=
  if content = "" then none
  else some (dropCR (content.toList.takeWhile (fun c => c != '\n')))

/-- Parsed shebang information (struct shebangInfo in detect.go). -/
structure shebangInfo where
  interpreter : String
  arguments : List String
  usesEnv : Bool
  fullLine : String
deriving DecidableEq, Repr

/-- A possible interpreter choice (struct InterpreterChoice). -/
structure InterpreterChoice where
  Source : String
  Interpreter : String
  Alternatives : List String
  UseShebang : Bool
  Reason : String
  RequiresPrompt : Bool
deriving DecidableEq, Repr

/-- The decision outcome (struct DecisionResult); the Go `error` field is
an `Option String` carrying the formatted message. -/
structure DecisionResult where
  Choices : List InterpreterChoice
  Error : Option String
deriving DecidableEq, Repr

/-- The input record (struct DecisionInput). -/
structure DecisionInput where
  scriptPath : String
  scriptContent : String
  explicitInterpreter : String
  trustShebang : Bool
deriving DecidableEq, Repr

/-- ExtensionMap from detect.go: file extensions to alternative
interpreters in priority order. -/
def ExtensionMap : List (String × List String) :=
  [(".py", ["python3", "python"]),
   (".rb", ["ruby"]),
   (".pl", ["perl"]),
   (".sh", ["sh"]),
   (".bash", ["bash"]),
   (".zsh", ["zsh"]),
   (".js", ["node"]),
   (".lua", ["lua"]),
   (".php", ["php"])]

/-- interpreterFamilies from detect.go: base interpreter names to family. -/
def interpreterFamilies : List (String × String) :=
  [("python", "python"), ("python2", "python"), ("python3", "python"),
   ("ruby", "ruby"), ("ruby2", "ruby"), ("ruby3", "ruby"),
   ("perl", "perl"), ("perl5", "perl"),
   ("sh", "shell"), ("bash", "shell"), ("dash", "shell"),
   ("zsh", "shell"), ("ksh", "shell"),
   ("node", "javascript"), ("nodejs", "javascript"),
   ("lua", "lua"), ("php", "php")]

/-- The replace step of getInterpreterFamily:
regexp `\d+\.\d+$` replaced by "". The (unique, end-anchored) match is a
maximal run of trailing digits, preceded by a dot, preceded by a nonempty
run of digits; when present the whole match is removed. -/
def stripVersion (s : String) : String :=
  let r := s.toList.reverse
  let afterMinor := r.dropWhile Char.isDigit
  if (r.takeWhile Char.isDigit).isEmpty then s
  else
    match afterMinor with
    | '.' :: r2 =>
      if (r2.takeWhile Char.isDigit).isEmpty then s
      else (r2.dropWhile Char.isDigit).reverse.asString
    | _ => s

/-- getInterpreterFamily from detect.go: strip the version-suffix regex
match, then look the result up in interpreterFamilies, falling back to the
stripped name itself. -/
def getInterpreterFamily (interp : String) : String :=
  match List.lookup (stripVersion interp) interpreterFamilies with
  | some family => family
  | none => stripVersion interp

/-- The env-form scan of parseShebang: Go iterates over the fields and,
at the first field ending in "/env" that has a successor, returns that
successor as interpreter with the remaining fields as arguments. -/
def envScan : List String → Option (String × List String)
  | [] => none
  | [_] => none
  | p :: q :: rest =>
    if goEndsWith p "/env" then some (q, rest) else envScan (q :: rest)

/-- The direct-path form of parseShebang: the basename of the first field
is the interpreter, remaining fields are arguments; no fields means no
shebang info at all. -/
def directForm (rest : List Char) (full : String) : Option shebangInfo :=
  match goFields rest with
  | [] => none
  | p :: ps => some ⟨goBase p, ps, false, full⟩

/-- parseShebang from detect.go: read the first line, trim it, require the
"#!" marker, then try the env form (only when the line contains "/env"),
falling back to the direct-path form. -/
def parseShebang (content : String) : Option shebangInfo :=
  match firstLine content with
  | none => none
  | some raw =>
    let line := goTrimSpace raw
    if startsWithChars line ("#!".toList) then
      let rest := goTrimSpace (line.drop 2)
      if containsChars rest ("/env".toList) then
        match envScan (goFields rest) with
        | some (interp, args) => some ⟨interp, args, true, line.asString⟩
        | none => directForm rest line.asString
      else directForm rest line.asString
    else none

/-- determineWithShebang from detect.go: the shebang scenarios when no
explicit interpreter is given and the shebang is not blindly trusted. -/
def determineWithShebang (ext : String) (sb : shebangInfo) : DecisionResult :=
  if 0 < sb.arguments.length ∧ sb.usesEnv = false then
    match List.lookup ext ExtensionMap with
    | some extAlternatives =>
      ⟨[⟨"extension-alternatives", "", extAlternatives, false,
          "Use extension-based interpreter without arguments (recommended)", true⟩,
        ⟨"shebang", sb.interpreter, [], true,
          "Use shebang verbatim: " ++ sb.fullLine ++ " (may be system-specific)", true⟩],
       none⟩
    | none =>
      ⟨[⟨"shebang", sb.interpreter, [], true,
          "Shebang with arguments: " ++ sb.fullLine ++ " (requires confirmation)", true⟩],
       none⟩
  else if ext = "" then
    ⟨[⟨"shebang", sb.interpreter, [], false,
        "No file extension, using shebang: " ++ sb.fullLine, !sb.usesEnv⟩],
     none⟩
  else
    match List.lookup ext ExtensionMap with
    | none =>
      ⟨[⟨"shebang", sb.interpreter, [], false,
          "Extension " ++ ext ++ " not recognized, using shebang: " ++ sb.fullLine, true⟩],
       none⟩
    | some alternatives =>
      if alternatives.any
          (fun alt => getInterpreterFamily alt == getInterpreterFamily sb.interpreter) then
        ⟨[⟨"extension-alternatives", "", alternatives, false,
            "Shebang (" ++ sb.interpreter ++ ") consistent with extension " ++ ext, false⟩],
         none⟩
      else
        ⟨[⟨"extension-alternatives", "", alternatives, false,
            "Use extension-based interpreter (recommended)", true⟩,
          ⟨"shebang", sb.interpreter, [], false,
            "Use shebang interpreter: " ++ sb.fullLine, true⟩],
         none⟩

/-- DetermineInterpreterChoices from detect.go: priority order is explicit
interpreter, then shebang (trusted or analysed), then extension mapping,
then a terminal error. -/
def DetermineInterpreterChoices (d : DecisionInput) : DecisionResult :=
  if d.explicitInterpreter ≠ "" then
    ⟨[⟨"explicit", d.explicitInterpreter, [], false,
        "Explicitly specified via --interpreter flag", false⟩],
     none⟩
  else
    match parseShebang d.scriptContent with
    | some sb =>
      if d.trustShebang then
        ⟨[⟨"shebang", sb.interpreter, [], false,
            "Trusting shebang via --trust-shebang flag", false⟩],
         none⟩
      else determineWithShebang (goExt d.scriptPath) sb
    | none =>
      match List.lookup (goExt d.scriptPath) ExtensionMap with
      | some alternatives =>
        ⟨[⟨"extension-alternatives", "", alternatives, false,
            "Based on file extension " ++ goExt d.scriptPath, false⟩],
         none⟩
      | none =>
        ⟨[], some ("could not determine interpreter for " ++ d.scriptPath ++
            " (no --interpreter, no shebang, extension " ++ goExt d.scriptPath ++
            " not recognized)")⟩

/-- The branch which resolveChoice in detect.go takes on a choice:
explicit, shebang-verbatim, extension-alternatives, or the internal-error
fall-through for an unknown choice source. -/
inductive ResolveBranch
  | explicitBranch
  | shebangBranch
  | extAltBranch
  | unknownSourceError
deriving DecidableEq, Repr

/-- The dispatch structure of resolveChoice from detect.go. -/
def resolveChoiceBranch (c : InterpreterChoice) : ResolveBranch :=
  if c.Source = "explicit" then .explicitBranch
  else if c.UseShebang = true ∨ c.Source = "shebang" then .shebangBranch
  else if c.Source = "extension-alternatives" then .extAltBranch
  else .unknownSourceError

/-! ## Reduction helpers -/

/-- With an empty override and a parsed hint, the engine reduces to the
trust branch or to determineWithShebang. -/
lemma det_with_hint (p c : String) (t : Bool) (sb : shebangInfo)
    (h : parseShebang c = some sb) :
    DetermineInterpreterChoices ⟨p, c, "", t⟩ =
      if t then
        ⟨[⟨"shebang", sb.interpreter, [], false,
            "Trusting shebang via --trust-shebang flag", false⟩], none⟩
      else determineWithShebang (goExt p) sb := by
  unfold DetermineInterpreterChoices
  simp only [ne_eq, not_true_eq_false, if_false, h]

/-- The empty extension has no entry in the extension table. -/
lemma lookup_empty_ext : List.lookup "" ExtensionMap = none := by decide

/-! ## Claims -/

/-- C1: whenever the explicit override string is non-empty,
DetermineInterpreterChoices returns no error and exactly one candidate,
of source "explicit", whose interpreter is the override string and which
requires no prompt, irrespective of path, content and trust flag. -/
theorem explicit_override_single_choice (p c o : String) (t : Bool)
    (h : o ≠ "") :
    DetermineInterpreterChoices ⟨p, c, o, t⟩ =
      ⟨[⟨"explicit", o, [], false,
          "Explicitly specified via --interpreter flag", false⟩], none⟩ := by
  unfold DetermineInterpreterChoices
  simp only [ne_eq, h, not_false_eq_true, if_true]

/-- Witness for C1 at a concrete input: override "ruby" wins over a python
shebang and a .py extension. -/
theorem explicit_override_single_choice_witness :
    DetermineInterpreterChoices
        ⟨"script.py", "#!/usr/bin/env python\nprint(1)", "ruby", false⟩ =
      ⟨[⟨"explicit", "ruby", [], false,
          "Explicitly specified via --interpreter flag", false⟩], none⟩ :=
  explicit_override_single_choice "script.py" "#!/usr/bin/env python\nprint(1)"
    "ruby" false (by decide)

/-- C2 counterexample: with trustShebang=true but no shebang hint in the
content, the engine does not produce a shebang-verbatim candidate; it falls
through to the extension branch. -/
theorem trust_without_hint_cex :
    (DetermineInterpreterChoices
        ⟨"script.py", "print(1)", "", true⟩).Choices.map InterpreterChoice.Source =
      ["extension-alternatives"] ∧
    ¬ ((DetermineInterpreterChoices
        ⟨"script.py", "print(1)", "", true⟩).Choices.map InterpreterChoice.Source =
      ["shebang"]) := by decide

/-- C2 amended: with no explicit override and a shebang hint present,
trustShebang=true yields exactly one candidate of source "shebang" with
the hint interpreter and no prompt, regardless of arguments, indirection
form, extension or family consistency. -/
theorem trust_with_hint_single_shebang (p c : String) (sb : shebangInfo)
    (h : parseShebang c = some sb) :
    DetermineInterpreterChoices ⟨p, c, "", true⟩ =
      ⟨[⟨"shebang", sb.interpreter, [], false,
          "Trusting shebang via --trust-shebang flag", false⟩], none⟩ := by
  rw [det_with_hint p c true sb h]
  rfl

/-- Witness for the amended C2 at a concrete input: a ruby hint against a
.py extension is trusted verbatim. -/
theorem trust_with_hint_single_shebang_witness :
    DetermineInterpreterChoices ⟨"script.py", "#!/usr/bin/env ruby\nputs 1", "", true⟩ =
      ⟨[⟨"shebang", "ruby", [], false,
          "Trusting shebang via --trust-shebang flag", false⟩], none⟩ :=
  trust_with_hint_single_shebang "script.py" "#!/usr/bin/env ruby\nputs 1"
    ⟨"ruby", [], true, "#!/usr/bin/env ruby"⟩ (by decide)

/-- C3: with no override, trust off, a hint that is not an
argument-bearing direct-path form, and a recognized extension: a family
match between hint and some alternative gives a single automatic
extension-alternatives candidate; no family match gives two candidates,
extension-alternatives first and shebang second, both prompting. -/
theorem hint_consistency_cases (p c : String) (sb : shebangInfo)
    (alts : List String)
    (hsb : parseShebang c = some sb)
    (hform : sb.arguments = [] ∨ sb.usesEnv = true)
    (halts : List.lookup (goExt p) ExtensionMap = some alts) :
    ((∃ a ∈ alts, getInterpreterFamily a = getInterpreterFamily sb.interpreter) →
      DetermineInterpreterChoices ⟨p, c, "", false⟩ =
        ⟨[⟨"extension-alternatives", "", alts, false,
            "Shebang (" ++ sb.interpreter ++ ") consistent with extension " ++ goExt p,
            false⟩], none⟩) ∧
    ((∀ a ∈ alts, getInterpreterFamily a ≠ getInterpreterFamily sb.interpreter) →
      DetermineInterpreterChoices ⟨p, c, "", false⟩ =
        ⟨[⟨"extension-alternatives", "", alts, false,
            "Use extension-based interpreter (recommended)", true⟩,
          ⟨"shebang", sb.interpreter, [], false,
            "Use shebang interpreter: " ++ sb.fullLine, true⟩], none⟩) := by
  rw [det_with_hint p c false sb hsb, if_neg (by simp)]
  unfold determineWithShebang
  have hguard : ¬ (0 < sb.arguments.length ∧ sb.usesEnv = false) := by
    rcases hform with h1 | h1 <;> rw [h1] <;> simp
  have hne : goExt p ≠ "" := by
    intro he
    rw [he, lookup_empty_ext] at halts
    exact Option.noConfusion halts
  rw [if_neg hguard, if_neg hne]
  simp only [halts]
  constructor
  · intro hex
    have hany : (alts.any
        fun alt => getInterpreterFamily alt == getInterpreterFamily sb.interpreter) = true := by
      rcases hex with ⟨a, ha, hfa⟩
      exact List.any_eq_true.mpr ⟨a, ha, by simp [hfa]⟩
    rw [if_pos hany]
  · intro hall
    have hany : ¬ ((alts.any
        fun alt => getInterpreterFamily alt == getInterpreterFamily sb.interpreter) = true) := by
      intro hc
      rcases List.any_eq_true.mp hc with ⟨a, ha, hfa⟩
      exact hall a ha (by simpa using hfa)
    rw [if_neg hany]

/-- Witness for C3 at a concrete input: env-form python hint against .py;
the alternatives share the python family, so a single automatic
extension-alternatives candidate results. -/
theorem hint_consistency_cases_witness :
    ((∃ a ∈ ["python3", "python"],
        getInterpreterFamily a = getInterpreterFamily "python") →
      DetermineInterpreterChoices
          ⟨"script.py", "#!/usr/bin/env python\nprint(1)", "", false⟩ =
        ⟨[⟨"extension-alternatives", "", ["python3", "python"], false,
            "Shebang (" ++ "python" ++ ") consistent with extension " ++ goExt "script.py",
            false⟩], none⟩) ∧
    ((∀ a ∈ ["python3", "python"],
        getInterpreterFamily a ≠ getInterpreterFamily "python") →
      DetermineInterpreterChoices
          ⟨"script.py", "#!/usr/bin/env python\nprint(1)", "", false⟩ =
        ⟨[⟨"extension-alternatives", "", ["python3", "python"], false,
            "Use extension-based interpreter (recommended)", true⟩,
          ⟨"shebang", "python", [], false,
            "Use shebang interpreter: " ++ "#!/usr/bin/env python", true⟩], none⟩) :=
  hint_consistency_cases "script.py" "#!/usr/bin/env python\nprint(1)"
    ⟨"python", [], true, "#!/usr/bin/env python"⟩ ["python3", "python"]
    (by decide) (Or.inl rfl) (by decide)

/-- C4: with no override, trust off, and a hint carrying arguments in
direct-path (non-env) form: a recognized extension gives two prompting
candidates, extension-alternatives first and verbatim shebang second; an
unrecognized extension gives a single prompting shebang candidate. -/
theorem hint_with_arguments_cases (p c : String) (sb : shebangInfo)
    (hsb : parseShebang c = some sb)
    (hargs : sb.arguments ≠ [])
    (henv : sb.usesEnv = false) :
    (∀ alts, List.lookup (goExt p) ExtensionMap = some alts →
      DetermineInterpreterChoices ⟨p, c, "", false⟩ =
        ⟨[⟨"extension-alternatives", "", alts, false,
            "Use extension-based interpreter without arguments (recommended)", true⟩,
          ⟨"shebang", sb.interpreter, [], true,
            "Use shebang verbatim: " ++ sb.fullLine ++ " (may be system-specific)",
            true⟩], none⟩) ∧
    (List.lookup (goExt p) ExtensionMap = none →
      DetermineInterpreterChoices ⟨p, c, "", false⟩ =
        ⟨[⟨"shebang", sb.interpreter, [], true,
            "Shebang with arguments: " ++ sb.fullLine ++ " (requires confirmation)",
            true⟩], none⟩) := by
  rw [det_with_hint p c false sb hsb, if_neg (by simp)]
  unfold determineWithShebang
  rw [if_pos ⟨List.length_pos.mpr hargs, henv⟩]
  constructor
  · intro alts hl
    simp only [hl]
  · intro hl
    simp only [hl]

/-- Witness for C4 at a concrete input: "#!/usr/bin/python -u" against a
.py extension gives the two prompting candidates. -/
theorem hint_with_arguments_cases_witness :
    (∀ alts, List.lookup (goExt "script.py") ExtensionMap = some alts →
      DetermineInterpreterChoices
          ⟨"script.py", "#!/usr/bin/python -u\nprint(1)", "", false⟩ =
        ⟨[⟨"extension-alternatives", "", alts, false,
            "Use extension-based interpreter without arguments (recommended)", true⟩,
          ⟨"shebang", "python", [], true,
            "Use shebang verbatim: " ++ "#!/usr/bin/python -u" ++ " (may be system-specific)",
            true⟩], none⟩) ∧
    (List.lookup (goExt "script.py") ExtensionMap = none →
      DetermineInterpreterChoices
          ⟨"script.py", "#!/usr/bin/python -u\nprint(1)", "", false⟩ =
        ⟨[⟨"shebang", "python", [], true,
            "Shebang with arguments: " ++ "#!/usr/bin/python -u" ++ " (requires confirmation)",
            true⟩], none⟩) :=
  hint_with_arguments_cases "script.py" "#!/usr/bin/python -u\nprint(1)"
    ⟨"python", ["-u"], false, "#!/usr/bin/python -u"⟩
    (by decide) (by decide) rfl

/-- C5: with no override and no shebang hint, an extension outside the
table gives zero candidates and a non-nil terminal error, while a tabled
extension gives a single automatic extension-alternatives candidate. -/
theorem no_hint_extension_cases (p c : String) (t : Bool)
    (hsb : parseShebang c = none) :
    (List.lookup (goExt p) ExtensionMap = none →
      DetermineInterpreterChoices ⟨p, c, "", t⟩ =
        ⟨[], some ("could not determine interpreter for " ++ p ++
            " (no --interpreter, no shebang, extension " ++ goExt p ++
            " not recognized)")⟩) ∧
    (∀ alts, List.lookup (goExt p) ExtensionMap = some alts →
      DetermineInterpreterChoices ⟨p, c, "", t⟩ =
        ⟨[⟨"extension-alternatives", "", alts, false,
            "Based on file extension " ++ goExt p, false⟩], none⟩) := by
  unfold DetermineInterpreterChoices
  simp only [ne_eq, not_true_eq_false, if_false, hsb]
  constructor
  · intro hl
    simp only [hl]
  · intro alts hl
    simp only [hl]

/-- Witness for C5 at concrete inputs: extensionless path, no shebang. -/
theorem no_hint_extension_cases_witness :
    (List.lookup (goExt "script") ExtensionMap = none →
      DetermineInterpreterChoices ⟨"script", "print(1)", "", false⟩ =
        ⟨[], some ("could not determine interpreter for " ++ "script" ++
            " (no --interpreter, no shebang, extension " ++ goExt "script" ++
            " not recognized)")⟩) ∧
    (∀ alts, List.lookup (goExt "script") ExtensionMap = some alts →
      DetermineInterpreterChoices ⟨"script", "print(1)", "", false⟩ =
        ⟨[⟨"extension-alternatives", "", alts, false,
            "Based on file extension " ++ goExt "script", false⟩], none⟩) :=
  no_hint_extension_cases "script" "print(1)" false (by decide)

/-- C6: for every input, the result has either one or two candidates and a
nil error, or zero candidates and a non-nil error; candidates and error
are never both populated and never both empty. -/
theorem choices_error_mutually_exclusive (d : DecisionInput) :
    ((DetermineInterpreterChoices d).Choices ≠ [] ∧
     ((DetermineInterpreterChoices d).Choices.length = 1 ∨
       (DetermineInterpreterChoices d).Choices.length = 2) ∧
     (DetermineInterpreterChoices d).Error = none) ∨
    ((DetermineInterpreterChoices d).Choices = [] ∧
     (DetermineInterpreterChoices d).Error ≠ none) := by
  unfold DetermineInterpreterChoices determineWithShebang
  repeat' split
  all_goals simp

/-- C7: the code strips the regexp match digits-dot-digits entirely, so
"python3.11" strips to "python", not to "python3" as the comment in the
source and the specification state; on "bash5.1" the two readings give
different families ("shell" for the code, the singleton "bash5" for the
documented stripping). -/
theorem strip_version_code_behavior :
    stripVersion "python3.11" = "python" ∧
    ¬ (stripVersion "python3.11" = "python3") ∧
    getInterpreterFamily "python3.11" = "python" ∧
    stripVersion "bash5.1" = "bash" ∧
    getInterpreterFamily "bash5.1" = "shell" := by decide

/-- C8 counterexample: a first line of exactly "#!/usr/bin/env" does not
make the analyzer report absence, and the engine takes the shebang branch
(producing a shebang candidate where the claim predicts the no-shebang
terminal error for an extensionless path). -/
theorem env_only_line_cex :
    ¬ (parseShebang "#!/usr/bin/env" = none) ∧
    (DetermineInterpreterChoices ⟨"script", "#!/usr/bin/env", "", false⟩).Error = none ∧
    (DetermineInterpreterChoices
        ⟨"script", "#!/usr/bin/env", "", false⟩).Choices.map InterpreterChoice.Source =
      ["shebang"] := by decide

/-- C8 amended: a first line of exactly "#!/usr/bin/env" yields a hint
whose interpreter is "env" (the basename of the env path) with no
arguments and usesEnv=false, and the engine proceeds through the shebang
branches. -/
theorem env_only_line_yields_env_hint :
    parseShebang "#!/usr/bin/env" = some ⟨"env", [], false, "#!/usr/bin/env"⟩ ∧
    DetermineInterpreterChoices ⟨"script", "#!/usr/bin/env", "", false⟩ =
      ⟨[⟨"shebang", "env", [], false,
          "No file extension, using shebang: " ++ "#!/usr/bin/env", true⟩], none⟩ := by
  decide

/-- C9 counterexample: the analyzer trims the first line before testing
the marker, so a first line " #!/bin/sh" whose first two characters are
not "#!" still yields a hint. -/
theorem untrimmed_marker_line_cex :
    startsWithChars " #!/bin/sh".toList "#!".toList = false ∧
    firstLine " #!/bin/sh\necho hi" = some " #!/bin/sh".toList ∧
    parseShebang " #!/bin/sh\necho hi" = some ⟨"sh", [], false, "#!/bin/sh"⟩ := by
  decide

/-- C9 amended: when the first line, after trimming whitespace, does not
begin with the marker "#!", the analyzer reports absence (the `none`
value, not an error and not an empty hint). -/
theorem trimmed_line_without_marker_no_hint (content : String)
    (raw : List Char)
    (hline : firstLine content = some raw)
    (hmark : startsWithChars (goTrimSpace raw) "#!".toList = false) :
    parseShebang content = none := by
  unfold parseShebang
  simp only [hline]
  rw [if_neg (by simpa using hmark)]

/-- Witness for the amended C9 at a concrete input: an ordinary python
source line yields no hint. -/
theorem trimmed_line_without_marker_no_hint_witness :
    parseShebang "print(1)" = none :=
  trimmed_line_without_marker_no_hint "print(1)" "print(1)".toList
    (by decide) (by decide)

/-- Every choice the engine constructs has source "explicit", "shebang" or
"extension-alternatives", and an extension-alternatives choice never sets
UseShebang. -/
lemma choices_shape (d : DecisionInput) (ch : InterpreterChoice)
    (h : ch ∈ (DetermineInterpreterChoices d).Choices) :
    ch.Source = "explicit" ∨ ch.Source = "shebang" ∨
      (ch.Source = "extension-alternatives" ∧ ch.UseShebang = false) := by
  unfold DetermineInterpreterChoices determineWithShebang at h
  repeat' split at h
  all_goals simp at h
  all_goals try obtain rfl | rfl := h
  all_goals first
    | exact Or.inl rfl
    | exact Or.inr (Or.inl rfl)
    | exact Or.inr (Or.inr ⟨rfl, rfl⟩)

/-- A choice of one of the engine's three source kinds never reaches the
unknown-source fall-through of resolveChoice. -/
lemma branch_of_shape (ch : InterpreterChoice)
    (h : ch.Source = "explicit" ∨ ch.Source = "shebang" ∨
      (ch.Source = "extension-alternatives" ∧ ch.UseShebang = false)) :
    resolveChoiceBranch ch ≠ ResolveBranch.unknownSourceError := by
  unfold resolveChoiceBranch
  rcases h with h | h | ⟨h, hu⟩
  · rw [if_pos h]
    decide
  · rw [h, if_neg (by decide), if_pos (Or.inr rfl)]
    decide
  · rw [h, hu, if_neg (by decide), if_neg (by decide), if_pos rfl]
    decide

/-- C10: every candidate produced by the engine has source "explicit",
"shebang" or "extension-alternatives", so resolveChoice's unknown-source
internal-error fall-through is unreachable on engine output. -/
theorem choice_sources_closed (d : DecisionInput) (ch : InterpreterChoice)
    (h : ch ∈ (DetermineInterpreterChoices d).Choices) :
    (ch.Source = "explicit" ∨ ch.Source = "shebang" ∨
      ch.Source = "extension-alternatives") ∧
    resolveChoiceBranch ch ≠ ResolveBranch.unknownSourceError :=
  ⟨(choices_shape d ch h).imp id (Or.imp id And.left),
   branch_of_shape ch (choices_shape d ch h)⟩

/-- Witness for C10 at a concrete input: the single extension-alternatives
candidate of a .py script without shebang. -/
theorem choice_sources_closed_witness :
    (InterpreterChoice.Source
        ⟨"extension-alternatives", "", ["python3", "python"], false,
          "Based on file extension .py", false⟩ = "explicit" ∨
      InterpreterChoice.Source
        ⟨"extension-alternatives", "", ["python3", "python"], false,
          "Based on file extension .py", false⟩ = "shebang" ∨
      InterpreterChoice.Source
        ⟨"extension-alternatives", "", ["python3", "python"], false,
          "Based on file extension .py", false⟩ = "extension-alternatives") ∧
    resolveChoiceBranch
        ⟨"extension-alternatives", "", ["python3", "python"], false,
          "Based on file extension .py", false⟩ ≠
      ResolveBranch.unknownSourceError :=
  choice_sources_closed ⟨"script.py", "print(1)", "", false⟩
    ⟨"extension-alternatives", "", ["python3", "python"], false,
      "Based on file extension .py", false⟩ (by decide)

end Scriptman
